import Mathlib

/-!
Verification of the upsell-group persistence-and-enrichment layer of a
Shopify merchant app (`app/models/Upsell.server.ts`), its public retrieval
endpoint (`app/routes/api/upsell.ts`), and the JSON round trip the storage
layer relies on.

The embedding models:
* `JSON.stringify` / `JSON.parse` restricted to arrays of strings, which is
  exactly the fragment the source uses for the `productIds` column
  (`JSON.stringify(productIds)` on write, `JSON.parse(group.productIds)` on
  read);
* the Prisma table `UpsellGroup` as an explicit store state (a list of rows
  plus the auto-increment counter), with `create` / `findFirst` / `findMany`
  / `updateMany` / `deleteMany` given their documented semantics;
* the external GraphQL catalog client as an arbitrary function from the
  request to a response that may throw;
* the public endpoint handler over a small model of the JavaScript values it
  destructures.
-/

/- ===================== JSON string-array codec ===================== -/

/-- Hex digit character for a nibble, lowercase as produced by
`JSON.stringify` in its `\u00XX` escapes. -/
def hexDigit (n : Nat) : Char :=
  if n < 10 then Char.ofNat (48 + n) else Char.ofNat (87 + n)

/-- Numeric value of a hex digit character (upper or lower case), as accepted
by `JSON.parse` in `\uXXXX` escapes. -/
def hexVal (c : Char) : Option Nat :=
  if 48 ≤ c.toNat ∧ c.toNat ≤ 57 then some (c.toNat - 48)
  else if 97 ≤ c.toNat ∧ c.toNat ≤ 102 then some (c.toNat - 87)
  else if 65 ≤ c.toNat ∧ c.toNat ≤ 70 then some (c.toNat - 55)
  else none

/-- Encoding of one character inside a JSON string literal, following the
`QuoteJSONString` algorithm used by `JSON.stringify`: quote and backslash are
escaped, the control characters 8, 9, 10, 12, 13 get their short escapes, the
remaining control characters get `\u00XX`, everything else is verbatim. -/
def encChar (c : Char) : List Char :=
  if c = '"' then ['\\', '"']
  else if c = '\\' then ['\\', '\\']
  else if c.toNat = 8 then ['\\', 'b']
  else if c.toNat = 9 then ['\\', 't']
  else if c.toNat = 10 then ['\\', 'n']
  else if c.toNat = 12 then ['\\', 'f']
  else if c.toNat = 13 then ['\\', 'r']
  else if c.toNat < 32 then ['\\', 'u', '0', '0', hexDigit (c.toNat / 16), hexDigit (c.toNat % 16)]
  else [c]

/-- Decoding of a single-character JSON escape (everything except `\u`). -/
def decEsc (e : Char) : Option Char :=
  if e = '"' then some '"'
  else if e = '\\' then some '\\'
  else if e = '/' then some '/'
  else if e = 'b' then some (Char.ofNat 8)
  else if e = 't' then some (Char.ofNat 9)
  else if e = 'n' then some (Char.ofNat 10)
  else if e = 'f' then some (Char.ofNat 12)
  else if e = 'r' then some (Char.ofNat 13)
  else none

/-- Parser for the body of a JSON string literal (the opening quote already
consumed). Returns the decoded characters and the input following the closing
quote; rejects raw control characters and bad escapes, as `JSON.parse` does. -/
def parseStrBody : List Char → Option (List Char × List Char)
  | [] => none
  | c :: rest =>
    if c = '"' then some ([], rest)
    else if c = '\\' then
      match rest with
      | [] => none
      | e :: rest2 =>
        if e = 'u' then
          match rest2 with
          | h1 :: h2 :: h3 :: h4 :: rest3 =>
            match hexVal h1, hexVal h2, hexVal h3, hexVal h4 with
            | some a, some b, some v3, some d =>
              (fun p => (Char.ofNat (a * 4096 + b * 256 + v3 * 16 + d) :: p.1, p.2)) <$>
                parseStrBody rest3
            | _, _, _, _ => none
          | _ => none
        else
          match decEsc e with
          | none => none
          | some dc => (fun p => (dc :: p.1, p.2)) <$> parseStrBody rest2
    else if c.toNat < 32 then none
    else (fun p => (c :: p.1, p.2)) <$> parseStrBody rest

/-- One-step unfolding of `parseStrBody` on a cons cell, usable with an
abstract tail (the automatically generated equations split on the tail). -/
theorem parseStrBody_cons (c : Char) (rest : List Char) :
    parseStrBody (c :: rest) =
      if c = '"' then some ([], rest)
      else if c = '\\' then
        match rest with
        | [] => none
        | e :: rest2 =>
          if e = 'u' then
            match rest2 with
            | h1 :: h2 :: h3 :: h4 :: rest3 =>
              match hexVal h1, hexVal h2, hexVal h3, hexVal h4 with
              | some a, some b, some v3, some d =>
                (fun p => (Char.ofNat (a * 4096 + b * 256 + v3 * 16 + d) :: p.1, p.2)) <$>
                  parseStrBody rest3
              | _, _, _, _ => none
            | _ => none
          else
            match decEsc e with
            | none => none
            | some dc => (fun p => (dc :: p.1, p.2)) <$> parseStrBody rest2
      else if c.toNat < 32 then none
      else (fun p => (c :: p.1, p.2)) <$> parseStrBody rest := by
  rw [parseStrBody.eq_def]

/-- Lowercase hex digits decode back to their value. -/
theorem hexVal_hexDigit : ∀ n < 16, hexVal (hexDigit n) = some n := by decide

/-- String-body round trip: parsing an encoded character sequence followed by
the closing quote recovers the original characters and the rest of the input. -/
theorem parseStrBody_enc (cs : List Char) (rest : List Char) :
    parseStrBody (cs.flatMap encChar ++ '"' :: rest) = some (cs, rest) := by
  induction cs with
  | nil => simp [parseStrBody_cons]
  | cons c cs ih =>
    simp only [List.flatMap_cons, List.append_assoc]
    by_cases hq : c = '"'
    · simp [encChar, hq, parseStrBody_cons, decEsc, ih]
    · by_cases hb : c = '\\'
      · simp [encChar, hq, hb, parseStrBody_cons, decEsc, ih]
      · by_cases h8 : c.toNat = 8
        · have hc : c = Char.ofNat 8 := by
            have := Char.ofNat_toNat c; rw [h8] at this; exact this.symm
          subst hc
          simp [encChar, hq, hb, h8, parseStrBody_cons, decEsc, ih]
        · by_cases h9 : c.toNat = 9
          · have hc : c = Char.ofNat 9 := by
              have := Char.ofNat_toNat c; rw [h9] at this; exact this.symm
            subst hc
            simp [encChar, hq, hb, h8, h9, parseStrBody_cons, decEsc, ih]
          · by_cases h10 : c.toNat = 10
            · have hc : c = Char.ofNat 10 := by
                have := Char.ofNat_toNat c; rw [h10] at this; exact this.symm
              subst hc
              simp [encChar, hq, hb, h8, h9, h10, parseStrBody_cons, decEsc, ih]
            · by_cases h12 : c.toNat = 12
              · have hc : c = Char.ofNat 12 := by
                  have := Char.ofNat_toNat c; rw [h12] at this; exact this.symm
                subst hc
                simp [encChar, hq, hb, h8, h9, h10, h12, parseStrBody_cons, decEsc, ih]
              · by_cases h13 : c.toNat = 13
                · have hc : c = Char.ofNat 13 := by
                    have := Char.ofNat_toNat c; rw [h13] at this; exact this.symm
                  subst hc
                  simp [encChar, hq, hb, h8, h9, h10, h12, h13, parseStrBody_cons, decEsc, ih]
                · by_cases hlt : c.toNat < 32
                  · have hd1 : hexVal (hexDigit (c.toNat / 16)) = some (c.toNat / 16) :=
                      hexVal_hexDigit _ (by omega)
                    have hd2 : hexVal (hexDigit (c.toNat % 16)) = some (c.toNat % 16) :=
                      hexVal_hexDigit _ (Nat.mod_lt _ (by omega))
                    have hv0 : hexVal '0' = some 0 := by decide
                    have hchar : Char.ofNat (c.toNat / 16 * 16 + c.toNat % 16) = c := by
                      have heq : c.toNat / 16 * 16 + c.toNat % 16 = c.toNat := by omega
                      rw [heq, Char.ofNat_toNat]
                    simp [encChar, hq, hb, h8, h9, h10, h12, h13, hlt, parseStrBody_cons, hd1, hd2,
                      hv0, hchar, ih]
                  · simp [encChar, hq, hb, h8, h9, h10, h12, h13, hlt, parseStrBody_cons, ih]

/-- Encoding of one string as a JSON string literal. -/
def encStr (s : String) : List Char :=
  '"' :: s.data.flatMap encChar ++ ['"']

/-- Encoding of the comma-separated items of a JSON array of strings
(without the surrounding brackets). -/
def encItems : List String → List Char
  | [] => []
  | [x] => encStr x
  | x :: xs => encStr x ++ ',' :: encItems xs

/-- Model of `JSON.stringify` on an array of strings: bracketed,
comma-separated JSON string literals, no whitespace. -/
def jsonStringify (l : List String) : String :=
  String.mk ('[' :: encItems l ++ [']'])

/-- Fuel-indexed parser for the items of a JSON array of strings, positioned
at the start of an item. Returns the items and the input after the closing
bracket. The fuel only bounds the number of items; callers pass the input
length, which is always sufficient since every item consumes input. -/
def parseItemsFuel : Nat → List Char → Option (List String × List Char)
  | 0, _ => none
  | fuel + 1, l =>
    match l with
    | '"' :: rest =>
      match parseStrBody rest with
      | some (s, ']' :: rest2) => some ([String.mk s], rest2)
      | some (s, ',' :: rest2) =>
        match parseItemsFuel fuel rest2 with
        | some (l2, rest3) => some (String.mk s :: l2, rest3)
        | none => none
      | _ => none
    | _ => none

/-- Model of `JSON.parse` specialised to arrays of strings (the only shape the
source ever decodes): anything that is not a whitespace-free array of string
literals is a parse failure, returned as `none` where `JSON.parse` throws. -/
def jsonParseStringArray (s : String) : Option (List String) :=
  match s.data with
  | [] => none
  | c :: rest =>
    if c = '[' then
      if rest = [']'] then some []
      else
        match parseItemsFuel rest.length rest with
        | some (l, []) => some l
        | _ => none
    else none

/-- One-step unfolding of `parseItemsFuel` with positive fuel. -/
theorem parseItemsFuel_succ (fuel : Nat) (l : List Char) :
    parseItemsFuel (fuel + 1) l =
      match l with
      | '"' :: rest =>
        match parseStrBody rest with
        | some (s, ']' :: rest2) => some ([String.mk s], rest2)
        | some (s, ',' :: rest2) =>
          match parseItemsFuel fuel rest2 with
          | some (l2, rest3) => some (String.mk s :: l2, rest3)
          | none => none
        | _ => none
      | _ => none := by
  rw [parseItemsFuel.eq_def]

/-- Item-list round trip, given enough fuel for the number of items. -/
theorem parseItemsFuel_enc : ∀ (xs : List String) (x : String) (rest : List Char) (fuel : Nat),
    xs.length < fuel →
    parseItemsFuel fuel (encItems (x :: xs) ++ ']' :: rest) = some (x :: xs, rest) := by
  intro xs
  induction xs with
  | nil =>
    intro x rest fuel hf
    match fuel, hf with
    | fuel + 1, _ =>
      have harr : encItems [x] ++ ']' :: rest =
          '"' :: (x.data.flatMap encChar ++ '"' :: ']' :: rest) := by
        simp [encItems, encStr]
      rw [harr, parseItemsFuel_succ]
      simp [parseStrBody_enc]
  | cons y ys ih =>
    intro x rest fuel hf
    match fuel, hf with
    | fuel + 1, hf =>
      have harr : encItems (x :: y :: ys) ++ ']' :: rest =
          '"' :: (x.data.flatMap encChar ++ '"' :: ',' :: (encItems (y :: ys) ++ ']' :: rest)) := by
        simp [encItems, encStr]
      rw [harr, parseItemsFuel_succ]
      have h2 : parseItemsFuel fuel (encItems (y :: ys) ++ ']' :: rest) = some (y :: ys, rest) :=
        ih y rest fuel (by simp at hf ⊢; omega)
      simp [parseStrBody_enc, h2]

/-- Every encoded item list is at least as long as the number of items. -/
theorem encItems_length : ∀ (xs : List String) (x : String),
    xs.length + 1 ≤ (encItems (x :: xs)).length := by
  intro xs
  induction xs with
  | nil => intro x; simp [encItems, encStr]
  | cons y ys ih =>
    intro x
    have := ih y
    simp [encItems, encStr] at this ⊢
    omega

/-- Every encoded nonempty item list starts with a quote. -/
theorem encItems_head (x : String) (xs : List String) :
    ∃ t, encItems (x :: xs) = '"' :: t := by
  cases xs <;> simp [encItems, encStr]

/-- Serialize-then-decode round trip for string arrays: the decoding of
`JSON.stringify l` is exactly `l`. This is the storage round trip the service
relies on for the `productIds` column. -/
theorem jsonParse_jsonStringify (l : List String) :
    jsonParseStringArray (jsonStringify l) = some l := by
  cases l with
  | nil => rfl
  | cons x xs =>
    obtain ⟨t, ht⟩ := encItems_head x xs
    have hne : encItems (x :: xs) ++ [']'] ≠ [']'] := by
      rw [ht]; simp
    have hlen : xs.length < (encItems (x :: xs) ++ [']']).length := by
      have := encItems_length xs x
      simp
      omega
    have hparse : parseItemsFuel (encItems (x :: xs) ++ [']']).length
        (encItems (x :: xs) ++ ']' :: ([] : List Char)) = some (x :: xs, []) :=
      parseItemsFuel_enc xs x [] _ hlen
    have hparse2 : parseItemsFuel ((encItems (x :: xs)).length + 1)
        (encItems (x :: xs) ++ [']']) = some (x :: xs, []) := by
      simpa using hparse
    simp only [jsonStringify, jsonParseStringArray]
    simp only [List.cons_append]
    simp [hne, hparse2]

/- ===================== Data model ===================== -/

/-- Raw row of the `UpsellGroup` table, as stored by Prisma
(`UpsellGroupFromDB` in the source). `productIds` is the serialized JSON
text; `createdAt` is an abstract timestamp. -/
structure UpsellGroupFromDB where
  id : Nat
  title : String
  shop : String
  productIds : String
  createdAt : Nat
deriving DecidableEq

/-- Featured image of a catalog product (`featuredImage { url }` in the
GraphQL responses). -/
structure FeaturedImage where
  url : String
deriving DecidableEq

/-- One non-null node of a catalog GraphQL response:
`{ id, title, handle, featuredImage { url } }`. -/
structure ProductNode where
  id : String
  title : String
  handle : String
  featuredImage : Option FeaturedImage
deriving DecidableEq

/-- Display-ready product data (`ProductData` in the source). -/
structure ProductData where
  id : String
  title : String
  handle : String
  imageUrl : Option String
deriving DecidableEq

/-- Enriched upsell group (`EnrichedUpsellGroup` in the source): the stored
scalar fields joined with the live product data. -/
structure EnrichedUpsellGroup where
  id : Nat
  title : String
  shop : String
  createdAt : Nat
  products : List ProductData
deriving DecidableEq

/-- Mapping of a response node to display data, as in the `.map` step of
`supplementUpsellGroup`: `imageUrl` is `node.featuredImage?.url`. -/
def nodeToProduct (node : ProductNode) : ProductData :=
  { id := node.id, title := node.title, handle := node.handle,
    imageUrl := node.featuredImage.map (fun fi => fi.url) }

/- ===================== Catalog client model ===================== -/

/-- Outcome of one `adminClient.graphql` batch call for product nodes,
including awaiting and field access on the parsed response body.
`throws` covers a network error, a `json()` failure, or a missing `data`
field; `ok nodes` is a parsed body whose `data.nodes` is `nodes`
(`none` models a null/absent `nodes`, which the source defaults to `[]`;
each list entry is `none` for a null node, i.e. a deleted product). -/
inductive CatalogResponse where
  | throws (msg : String)
  | ok (nodes : Option (List (Option ProductNode)))
deriving DecidableEq

/-- Behaviour of the catalog client for the batch `nodes(ids:)` query: any
function from the requested identifier list to a response. -/
def CatalogClient : Type :=
  List String → CatalogResponse

/-- Enrichment (`supplementUpsellGroup` in the source): decode the stored
`productIds` JSON, issue one batch catalog query, drop null nodes, map the
rest to display data; any failure (decode error, thrown call) is caught and
degrades to an empty product list while keeping the stored scalar fields. -/
def supplementUpsellGroup (group : UpsellGroupFromDB) (adminClient : CatalogClient) :
    EnrichedUpsellGroup :=
  match jsonParseStringArray group.productIds with
  | none =>
    { id := group.id, title := group.title, shop := group.shop,
      createdAt := group.createdAt, products := [] }
  | some productIds =>
    match adminClient productIds with
    | CatalogResponse.throws _ =>
      { id := group.id, title := group.title, shop := group.shop,
        createdAt := group.createdAt, products := [] }
    | CatalogResponse.ok nodes =>
      let productNodes := nodes.getD []
      let products := (productNodes.filterMap id).map nodeToProduct
      { id := group.id, title := group.title, shop := group.shop,
        createdAt := group.createdAt, products := products }

/- ===================== Catalog search model ===================== -/

/-- The variables of the one search query `searchProducts` issues:
`products(first: 10, query: $query)` with a wildcard title pattern. -/
structure SearchRequest where
  first : Nat
  queryText : String
deriving DecidableEq

/-- Outcome of the search call, including response parsing: `throws` for a
thrown call or malformed body, `ok nodes` for a parsed body whose
`data.products.nodes` is `nodes` (`none` models null, defaulted to `[]`). -/
inductive SearchOutcome where
  | throws (msg : String)
  | ok (nodes : Option (List ProductNode))
deriving DecidableEq

/-- Behaviour of the catalog client for the search query. -/
def SearchClient : Type :=
  SearchRequest → SearchOutcome

/-- The request `searchProducts` builds: page size fixed at 10, basic title
wildcard search. -/
def searchRequestFor (query : String) : SearchRequest :=
  { first := 10, queryText := "title:*" ++ query ++ "*" }

/-- Product search (`searchProducts` in the source): one catalog query, no
try/catch — a thrown call or parse failure propagates to the caller. -/
def searchProducts (shop : String) (query : String) (adminClient : SearchClient) :
    Except String (List ProductData) :=
  match adminClient (searchRequestFor query) with
  | SearchOutcome.throws msg => Except.error msg
  | SearchOutcome.ok nodes => Except.ok ((nodes.getD []).map nodeToProduct)

/- ===================== Record store model ===================== -/

/-- State of the `UpsellGroup` table: the rows in insertion order and the
auto-increment counter for the next `id`. -/
structure StoreState where
  nextId : Nat
  records : List UpsellGroupFromDB
deriving DecidableEq

/-- Well-formedness of a store produced by auto-increment insertion: every
stored id is below the counter. -/
def StoreWF (s : StoreState) : Prop :=
  ∀ r ∈ s.records, r.id < s.nextId

/-- The `where: { id, shop }` row filter used by the service's update, delete
and lookup calls. -/
def rowMatches (id : Nat) (shop : String) (r : UpsellGroupFromDB) : Bool :=
  decide (r.id = id) && decide (r.shop = shop)

/-- Prisma `upsellGroup.create`: assign the next id, stamp the creation time,
append the row. Returns the new row and the new state. -/
def dbCreate (s : StoreState) (shop : String) (title : String) (productIdsText : String)
    (now : Nat) : UpsellGroupFromDB × StoreState :=
  let newGroup : UpsellGroupFromDB :=
    { id := s.nextId, title := title, shop := shop, productIds := productIdsText,
      createdAt := now }
  (newGroup, { nextId := s.nextId + 1, records := s.records ++ [newGroup] })

/-- Prisma `upsellGroup.findFirst({ where: { id, shop } })`. -/
def dbFindFirst (s : StoreState) (id : Nat) (shop : String) : Option UpsellGroupFromDB :=
  s.records.find? (rowMatches id shop)

/-- Prisma `upsellGroup.findMany({ where: { shop }, orderBy: { id: "desc" } })`. -/
def dbFindManyByShopDesc (s : StoreState) (shop : String) : List UpsellGroupFromDB :=
  List.insertionSort (fun a b => b.id ≤ a.id)
    (s.records.filter (fun r => decide (r.shop = shop)))

/-- Prisma `upsellGroup.updateMany({ where: { id, shop }, data })`: rewrite
every matching row, leave the rest in place. -/
def dbUpdateMany (s : StoreState) (id : Nat) (shop : String) (title : String)
    (productIdsText : String) : StoreState :=
  { s with
    records := s.records.map (fun r =>
      if rowMatches id shop r then
        { r with title := title, productIds := productIdsText }
      else r) }

/-- Prisma `upsellGroup.deleteMany({ where: { id, shop } })`: drop every
matching row. -/
def dbDeleteMany (s : StoreState) (id : Nat) (shop : String) : StoreState :=
  { s with records := s.records.filter (fun r => !(rowMatches id shop r)) }

/- ===================== Upsell service ===================== -/

/-- Candidate form data for create/update (`{ title, productIds }`). -/
structure UpsellGroupCandidate where
  title : String
  productIds : List String
deriving DecidableEq

/-- Field-error map built by `validateUpsellGroup`. -/
structure UpsellValidationErrors where
  title : Option String
  products : Option String
deriving DecidableEq

/-- Validation (`validateUpsellGroup` in the source): a `title` error when the
title is falsy (the empty string at its type), a `products` error when the
identifier list is falsy or empty; `none` (JS `undefined`) when the error map
stays empty. The embedding as a plain function witnesses that the source
function is pure: it performs no I/O and touches no state. -/
def validateUpsellGroup (data : UpsellGroupCandidate) : Option UpsellValidationErrors :=
  let titleError : Option String :=
    if data.title = "" then some ("Title is required") else none
  let productsError : Option String :=
    if data.productIds.isEmpty then some ("At least one product is required") else none
  if titleError = none ∧ productsError = none then none
  else some { title := titleError, products := productsError }

/-- Service create (`createUpsellGroup` in the source): `invariant` asserts on
a falsy title and an empty identifier list — modelled as `Except.error`, which
occurs before the store is touched (the store only appears in the `ok`
branch); then the identifiers are serialized with `JSON.stringify` and the raw
new row is returned together with the new store state. -/
def createUpsellGroup (s : StoreState) (shop : String) (title : String)
    (productIds : List String) (now : Nat) :
    Except String (UpsellGroupFromDB × StoreState) :=
  if title = "" then Except.error ("Title is required")
  else if productIds.isEmpty then Except.error ("Products are required")
  else Except.ok (dbCreate s shop title (jsonStringify productIds) now)

/-- Service single lookup (`getUpsellGroup` in the source): `findFirst` by
`(id, shop)`, `none` when absent, otherwise the enriched projection. -/
def getUpsellGroup (s : StoreState) (id : Nat) (shop : String)
    (adminClient : CatalogClient) : Option EnrichedUpsellGroup :=
  match dbFindFirst s id shop with
  | none => none
  | some group => some (supplementUpsellGroup group adminClient)

/-- Service listing (`getUpsellGroups` in the source): all rows for the shop
ordered by descending id; the empty list is returned directly without mapping
enrichment over it. -/
def getUpsellGroups (s : StoreState) (shop : String) (adminClient : CatalogClient) :
    List EnrichedUpsellGroup :=
  let groups := dbFindManyByShopDesc s shop
  if groups.isEmpty then []
  else groups.map (fun group => supplementUpsellGroup group adminClient)

/-- Service update (`updateUpsellGroup` in the source): the same `invariant`
asserts as create, then `updateMany` filtered by both `id` and `shop`, then a
`findFirst` whose result (the post-update row, or JS `null`) is returned. -/
def updateUpsellGroup (s : StoreState) (id : Nat) (shop : String)
    (data : UpsellGroupCandidate) :
    Except String (Option UpsellGroupFromDB × StoreState) :=
  if data.title = "" then Except.error ("Title is required")
  else if data.productIds.isEmpty then Except.error ("Products are required")
  else
    let s2 := dbUpdateMany s id shop data.title (jsonStringify data.productIds)
    Except.ok (dbFindFirst s2 id shop, s2)

/-- Acknowledgement value returned by the delete operation. -/
structure DeleteResult where
  success : Bool
deriving DecidableEq

/-- Service delete (`deleteUpsellGroup` in the source): `deleteMany` filtered
by both `id` and `shop`, then `{ success: true }` unconditionally. -/
def deleteUpsellGroup (s : StoreState) (id : Nat) (shop : String) :
    DeleteResult × StoreState :=
  ({ success := true }, dbDeleteMany s id shop)

/- ===================== Public retrieval endpoint model ===================== -/

/-- Small universe of the JavaScript values the endpoint handler manipulates:
`undefined`, `null`, a session object, and the CORS wrapper function. -/
inductive JsValue where
  | undefined
  | null
  | sessionObj (shop : String)
  | corsFn
deriving DecidableEq

/-- Property access (or destructuring) `v.prop` on a modelled value: throws a
TypeError on `null`/`undefined`; the session object and the cors function
have no `session` or `cors` property, so access yields `undefined`. -/
def getProp (v : JsValue) (prop : String) : Except String JsValue :=
  match v with
  | JsValue.undefined => Except.error ("TypeError: cannot destructure undefined")
  | JsValue.null => Except.error ("TypeError: cannot destructure null")
  | JsValue.sessionObj _ => Except.ok JsValue.undefined
  | JsValue.corsFn => Except.ok JsValue.undefined

/-- JavaScript falsiness on the modelled values. -/
def jsFalsy (v : JsValue) : Bool :=
  match v with
  | JsValue.undefined => true
  | JsValue.null => true
  | JsValue.sessionObj _ => false
  | JsValue.corsFn => false

/-- Body of an endpoint response: an `{ error: msg }` object or the record
returned by the store lookup (possibly JS `null`). -/
inductive ResponseBody where
  | errorMsg (msg : String)
  | recordBody (record : Option String)
deriving DecidableEq

/-- Endpoint HTTP response; `corsWrapped` records that the response went
through the `cors(...)` envelope. -/
structure ApiResponse where
  status : Nat
  body : ResponseBody
  corsWrapped : Bool
deriving DecidableEq

/-- Calling a modelled value as the CORS wrapper, `cors(resp)`: only the
actual function is callable, anything else throws a TypeError. -/
def callAsCors (f : JsValue) (resp : ApiResponse) : Except String ApiResponse :=
  match f with
  | JsValue.corsFn => Except.ok { resp with corsWrapped := true }
  | _ => Except.error ("TypeError: cors is not a function")

/-- Shape of the value returned by `authenticate.public.checkout(request)`:
a `session` field (a session object on success, or `null`/`undefined`) and a
`cors` field (the wrapper function). -/
structure CheckoutAuthResult where
  session : JsValue
  cors : JsValue
deriving DecidableEq

/-- Loader of `app/routes/api/upsell.ts`. `auth` models the
`authenticate.public.checkout(request)` call (`error` = the call threw,
which the loader does not catch); `dbResult` models the
`db.product.findFirst` query inside the try/catch (`error` = the query
threw). The body mirrors the source line by line, in particular the double
destructuring `const { session } = checkoutResult.session` and
`const { cors } = checkoutResult.cors`: the local `session` is
`checkoutResult.session.session` and the local `cors` is
`checkoutResult.cors.cors`. -/
def apiUpsellLoader (auth : Except String CheckoutAuthResult)
    (dbResult : Except String (Option String)) : Except String ApiResponse :=
  match auth with
  | Except.error e => Except.error e
  | Except.ok checkoutResult =>
    match getProp checkoutResult.session ("session") with
    | Except.error e => Except.error e
    | Except.ok session =>
      match getProp checkoutResult.cors ("cors") with
      | Except.error e => Except.error e
      | Except.ok cors =>
        if jsFalsy session then
          callAsCors cors
            { status := 401, body := ResponseBody.errorMsg ("Unauthorized"), corsWrapped := false }
        else
          match dbResult with
          | Except.ok upsellProducts =>
            callAsCors cors
              { status := 200, body := ResponseBody.recordBody upsellProducts,
                corsWrapped := false }
          | Except.error _ =>
            callAsCors cors
              { status := 500, body := ResponseBody.errorMsg ("Internal Server Error"),
                corsWrapped := false }

/- ===================== Helper lemmas ===================== -/

/-- Enrichment preserves the stored scalar fields on every path. -/
theorem supplementUpsellGroup_fields (group : UpsellGroupFromDB) (adminClient : CatalogClient) :
    (supplementUpsellGroup group adminClient).id = group.id ∧
    (supplementUpsellGroup group adminClient).title = group.title ∧
    (supplementUpsellGroup group adminClient).shop = group.shop ∧
    (supplementUpsellGroup group adminClient).createdAt = group.createdAt := by
  unfold supplementUpsellGroup
  cases hdec : jsonParseStringArray group.productIds with
  | none => simp [hdec]
  | some ids =>
    cases hresp : adminClient ids with
    | throws msg => simp [hdec, hresp]
    | ok nodes => simp [hdec, hresp]

/-- Membership in the shop listing: exactly the rows of the store owned by the
shop (the sort is a permutation). -/
theorem mem_dbFindManyByShopDesc (s : StoreState) (shop : String) (g : UpsellGroupFromDB) :
    g ∈ dbFindManyByShopDesc s shop ↔ g ∈ s.records ∧ g.shop = shop := by
  unfold dbFindManyByShopDesc
  rw [(List.perm_insertionSort _ _).mem_iff, List.mem_filter]
  simp

/-- Mapping a function that fixes every list element is the identity. -/
theorem map_eq_self_of_fixes {α : Type} (l : List α) (f : α → α)
    (h : ∀ x ∈ l, f x = x) : l.map f = l := by
  induction l with
  | nil => rfl
  | cons x xs ih =>
    simp only [List.map_cons]
    rw [h x (by simp), ih (fun y hy => h y (by simp [hy]))]

/- ===================== Demo values for concrete witnesses ===================== -/

/-- Empty store, counter at 1. -/
def demoStore : StoreState :=
  { nextId := 1, records := [] }

/-- One stored group with two serialized product identifiers. -/
def demoGroup : UpsellGroupFromDB :=
  { id := 1, title := "Summer", shop := "test-shop.myshopify.com",
    productIds := "[\"gid://shopify/Product/1\",\"gid://shopify/Product/2\"]",
    createdAt := 0 }

/-- Store holding `demoGroup`. -/
def demoStore2 : StoreState :=
  { nextId := 2, records := [demoGroup] }

/-- First product node returned by the demo catalog. -/
def demoNode : ProductNode :=
  { id := "gid://shopify/Product/1", title := "Prod 1", handle := "prod-1",
    featuredImage := none }

/-- Catalog behaviour answering every batch query with one live node and one
null node (a deleted product). -/
def demoClient : CatalogClient :=
  fun _ => CatalogResponse.ok (some [some demoNode, none])

/- ===================== Claim theorems ===================== -/

/-- C1: for every stored record and every behaviour of the catalog client,
`supplementUpsellGroup` never fails outward: the returned enriched group
keeps the record's `id`, `title`, `shop` and `createdAt` on every path; when
JSON-decoding of `productIds` fails, when the catalog call throws, or when
the parsed body has a null `nodes` list, `products` is empty; and when the
call succeeds with `N` requested identifiers (the response carrying one node
per identifier), the products are the null-filtered mapped nodes, hence at
most `N` of them. -/
theorem supplementUpsellGroup_never_fails_outward (group : UpsellGroupFromDB)
    (adminClient : CatalogClient) :
    (supplementUpsellGroup group adminClient).id = group.id ∧
    (supplementUpsellGroup group adminClient).title = group.title ∧
    (supplementUpsellGroup group adminClient).shop = group.shop ∧
    (supplementUpsellGroup group adminClient).createdAt = group.createdAt ∧
    (jsonParseStringArray group.productIds = none →
      (supplementUpsellGroup group adminClient).products = []) ∧
    (∀ ids msg, jsonParseStringArray group.productIds = some ids →
      adminClient ids = CatalogResponse.throws msg →
      (supplementUpsellGroup group adminClient).products = []) ∧
    (∀ ids, jsonParseStringArray group.productIds = some ids →
      adminClient ids = CatalogResponse.ok none →
      (supplementUpsellGroup group adminClient).products = []) ∧
    (∀ ids nodes, jsonParseStringArray group.productIds = some ids →
      adminClient ids = CatalogResponse.ok (some nodes) →
      (supplementUpsellGroup group adminClient).products =
        (nodes.filterMap id).map nodeToProduct ∧
      (nodes.length = ids.length →
        (supplementUpsellGroup group adminClient).products.length ≤ ids.length)) := by
  obtain ⟨h1, h2, h3, h4⟩ := supplementUpsellGroup_fields group adminClient
  refine ⟨h1, h2, h3, h4, ?_, ?_, ?_, ?_⟩
  · intro hdec
    simp [supplementUpsellGroup, hdec]
  · intro ids msg hdec hresp
    simp [supplementUpsellGroup, hdec, hresp]
  · intro ids hdec hresp
    simp [supplementUpsellGroup, hdec, hresp]
  · intro ids nodes hdec hresp
    have hprod : (supplementUpsellGroup group adminClient).products =
        (nodes.filterMap id).map nodeToProduct := by
      simp [supplementUpsellGroup, hdec, hresp]
    refine ⟨hprod, ?_⟩
    intro hlen
    rw [hprod, List.length_map, ← hlen]
    exact List.length_filterMap_le id nodes

/-- C1 witness: the demo record decodes to two identifiers, the demo catalog
returns one live and one null node, and the enriched products stay within the
requested count. -/
theorem supplementUpsellGroup_never_fails_outward_witness :
    (supplementUpsellGroup demoGroup demoClient).products.length ≤ 2 := by
  have h := (supplementUpsellGroup_never_fails_outward demoGroup demoClient).2.2.2.2.2.2.2
    ["gid://shopify/Product/1", "gid://shopify/Product/2"] [some demoNode, none]
    (by decide) rfl
  exact h.2 rfl

/-- C2: for every candidate input, `validateUpsellGroup` returns an error
object containing a `title` entry iff the title is empty, containing a
`products` entry iff the identifier sequence is empty, and returns no error
object iff both are non-empty. Purity holds by construction: the embedding is
a plain function of its argument. -/
theorem validateUpsellGroup_iff (data : UpsellGroupCandidate) :
    ((∃ errors, validateUpsellGroup data = some errors ∧ errors.title ≠ none) ↔
      data.title = "") ∧
    ((∃ errors, validateUpsellGroup data = some errors ∧ errors.products ≠ none) ↔
      data.productIds = []) ∧
    (validateUpsellGroup data = none ↔ (data.title ≠ "" ∧ data.productIds ≠ [])) := by
  by_cases ht : data.title = "" <;> by_cases hp : data.productIds = [] <;>
    simp [validateUpsellGroup, ht, hp, List.isEmpty_iff]

/-- C2 witness: a titled candidate with one product validates cleanly. -/
theorem validateUpsellGroup_iff_witness :
    validateUpsellGroup { title := "Summer", productIds := ["gid://shopify/Product/1"] } = none :=
  (validateUpsellGroup_iff
    { title := "Summer", productIds := ["gid://shopify/Product/1"] }).2.2.mpr (by decide)

/-- C6: `createUpsellGroup` and `updateUpsellGroup` succeed iff the title and
the identifier list are both non-empty; a violated precondition makes the call
fail fatally with the `invariant` message — an `Except.error`, not the
structured error map of `validateUpsellGroup` — and the store only appears in
the success branch, so a failed assert happens before the store is touched. -/
theorem createUpdate_invariant_asserts (s : StoreState) (id : Nat) (shop : String)
    (title : String) (productIds : List String) (now : Nat) :
    ((createUpsellGroup s shop title productIds now).isOk = true ↔
      (title ≠ "" ∧ productIds ≠ [])) ∧
    ((updateUpsellGroup s id shop { title := title, productIds := productIds }).isOk = true ↔
      (title ≠ "" ∧ productIds ≠ [])) ∧
    (title = "" →
      createUpsellGroup s shop title productIds now = Except.error ("Title is required") ∧
      updateUpsellGroup s id shop { title := title, productIds := productIds } =
        Except.error ("Title is required")) ∧
    (title ≠ "" → productIds = [] →
      createUpsellGroup s shop title productIds now = Except.error ("Products are required") ∧
      updateUpsellGroup s id shop { title := title, productIds := productIds } =
        Except.error ("Products are required")) := by
  by_cases ht : title = "" <;> by_cases hp : productIds = [] <;>
    simp [createUpsellGroup, updateUpsellGroup, ht, hp, List.isEmpty_iff, Except.isOk,
      Except.toBool]

/-- C6 witness: a valid create succeeds, an empty-title create fails. -/
theorem createUpdate_invariant_asserts_witness :
    (createUpsellGroup demoStore ("test-shop.myshopify.com") ("Summer")
        (["gid://shopify/Product/1"]) 0).isOk = true ∧
    createUpsellGroup demoStore ("test-shop.myshopify.com") ("")
        (["gid://shopify/Product/1"]) 0 = Except.error ("Title is required") :=
  ⟨((createUpdate_invariant_asserts demoStore 1 ("test-shop.myshopify.com") ("Summer")
      (["gid://shopify/Product/1"]) 0).1).mpr (by decide),
   ((createUpdate_invariant_asserts demoStore 1 ("test-shop.myshopify.com") ("")
      (["gid://shopify/Product/1"]) 0).2.2.1 rfl).1⟩

/-- C9: `searchProducts` builds one request with a page size of 10 (hence at
most 10 products are requested), and performs no recovery: a thrown catalog
call or parse failure propagates unchanged, and a successful response maps to
its nodes — the function never degrades a failure to an empty result. -/
theorem searchProducts_propagates (shop : String) (query : String)
    (adminClient : SearchClient) :
    (searchRequestFor query).first = 10 ∧
    (∀ msg, adminClient (searchRequestFor query) = SearchOutcome.throws msg →
      searchProducts shop query adminClient = Except.error msg) ∧
    (∀ nodes, adminClient (searchRequestFor query) = SearchOutcome.ok nodes →
      searchProducts shop query adminClient =
        Except.ok ((nodes.getD []).map nodeToProduct)) := by
  refine ⟨rfl, ?_, ?_⟩
  · intro msg hresp
    simp [searchProducts, hresp]
  · intro nodes hresp
    simp [searchProducts, hresp]

/-- C9 witness: a throwing catalog makes the search fail with the same error. -/
theorem searchProducts_propagates_witness :
    searchProducts ("test-shop.myshopify.com") ("tee")
      (fun _ => SearchOutcome.throws ("network down")) = Except.error ("network down") :=
  (searchProducts_propagates ("test-shop.myshopify.com") ("tee")
    (fun _ => SearchOutcome.throws ("network down"))).2.1 ("network down") rfl

/-- C10: the title checks use JavaScript falsiness, so every non-empty string
— whitespace-only ones included — passes: `validateUpsellGroup` reports no
title error and the `invariant` asserts in create and update do not fire;
only the empty string is rejected. -/
theorem title_falsiness_whitespace (s : StoreState) (id : Nat) (shop : String)
    (title : String) (productIds : List String) (now : Nat)
    (ht : title ≠ "") (hp : productIds ≠ []) :
    (∀ errors, validateUpsellGroup { title := title, productIds := productIds } = some errors →
      errors.title = none) ∧
    (createUpsellGroup s shop title productIds now).isOk = true ∧
    (updateUpsellGroup s id shop { title := title, productIds := productIds }).isOk = true ∧
    (∃ errors, validateUpsellGroup { title := "", productIds := productIds } = some errors ∧
      errors.title ≠ none) ∧
    (createUpsellGroup s shop ("") productIds now).isOk = false ∧
    (updateUpsellGroup s id shop { title := "", productIds := productIds }).isOk = false := by
  have hpe : productIds ≠ [] := hp
  refine ⟨?_, ?_, ?_, ?_, ?_, ?_⟩
  · intro errors herr
    by_cases hpemp : productIds = [] <;>
      simp [validateUpsellGroup, ht, hpemp, List.isEmpty_iff] at herr <;> simp_all
  · simp [createUpsellGroup, ht, List.isEmpty_iff, hpe, Except.isOk, Except.toBool]
  · simp [updateUpsellGroup, ht, List.isEmpty_iff, hpe, Except.isOk, Except.toBool]
  · simp [validateUpsellGroup, List.isEmpty_iff, hpe]
  · simp [createUpsellGroup, Except.isOk, Except.toBool]
  · simp [updateUpsellGroup, Except.isOk, Except.toBool]

/-- C10 witness: the whitespace-only title passes the create assert. -/
theorem title_falsiness_whitespace_witness :
    (createUpsellGroup demoStore ("test-shop.myshopify.com") (" ")
        (["gid://shopify/Product/1"]) 0).isOk = true :=
  (title_falsiness_whitespace demoStore 1 ("test-shop.myshopify.com") (" ")
    (["gid://shopify/Product/1"]) 0 (by decide) (by decide)).2.1

instance : IsTotal UpsellGroupFromDB (fun a b => b.id ≤ a.id) :=
  ⟨fun a b => Nat.le_total b.id a.id⟩

instance : IsTrans UpsellGroupFromDB (fun a b => b.id ≤ a.id) :=
  ⟨fun _ _ _ h1 h2 => Nat.le_trans h2 h1⟩

/-- C4: `getUpsellGroups` returns only enriched records whose shop equals the
given shop, in descending order of id; when no stored record belongs to the
shop it returns the empty sequence (the early return makes this happen
without mapping enrichment over anything); and the result is exactly the
enrichment of the sorted per-shop rows. -/
theorem getUpsellGroups_scoped_sorted (s : StoreState) (shop : String)
    (adminClient : CatalogClient) :
    (∀ e ∈ getUpsellGroups s shop adminClient, e.shop = shop) ∧
    List.Sorted (fun a b : Nat => b ≤ a)
      ((getUpsellGroups s shop adminClient).map (fun e => e.id)) ∧
    (s.records.filter (fun r => decide (r.shop = shop)) = [] →
      getUpsellGroups s shop adminClient = []) ∧
    getUpsellGroups s shop adminClient =
      (dbFindManyByShopDesc s shop).map (fun g => supplementUpsellGroup g adminClient) := by
  have hmap : getUpsellGroups s shop adminClient =
      (dbFindManyByShopDesc s shop).map (fun g => supplementUpsellGroup g adminClient) := by
    unfold getUpsellGroups
    by_cases hemp : (dbFindManyByShopDesc s shop).isEmpty
    · rw [List.isEmpty_iff] at hemp
      simp [hemp]
    · simp [hemp]
  refine ⟨?_, ?_, ?_, hmap⟩
  · intro e he
    rw [hmap] at he
    obtain ⟨g, hg, rfl⟩ := List.mem_map.mp he
    have hshop := ((mem_dbFindManyByShopDesc s shop g).mp hg).2
    rw [(supplementUpsellGroup_fields g adminClient).2.2.1, hshop]
  · rw [hmap]
    have hs : List.Sorted (fun a b : UpsellGroupFromDB => b.id ≤ a.id)
        (dbFindManyByShopDesc s shop) := List.sorted_insertionSort _ _
    rw [List.map_map]
    rw [List.Sorted, List.pairwise_map]
    refine hs.imp ?_
    intro a b h
    simp only [Function.comp_apply]
    rw [(supplementUpsellGroup_fields a adminClient).1,
      (supplementUpsellGroup_fields b adminClient).1]
    exact h
  · intro hfil
    rw [hmap]
    unfold dbFindManyByShopDesc
    rw [hfil]
    rfl

/-- C4 witness: the enrichment of the demo record is in the demo store's
listing for its shop, and its shop field is the queried shop. -/
theorem getUpsellGroups_scoped_sorted_witness :
    (supplementUpsellGroup demoGroup demoClient).shop = "test-shop.myshopify.com" :=
  (getUpsellGroups_scoped_sorted demoStore2 ("test-shop.myshopify.com") demoClient).1
    (supplementUpsellGroup demoGroup demoClient) (by decide)

/-- C8: `deleteUpsellGroup` removes exactly the rows matching both `id` and
`shop`, acknowledges success whether or not a row existed, and is idempotent:
a second call on the same `(id, shop)` also succeeds and leaves the store
unchanged. -/
theorem deleteUpsellGroup_idempotent (s : StoreState) (id : Nat) (shop : String) :
    (deleteUpsellGroup s id shop).1.success = true ∧
    (∀ r, r ∈ (deleteUpsellGroup s id shop).2.records ↔
      (r ∈ s.records ∧ rowMatches id shop r = false)) ∧
    (deleteUpsellGroup (deleteUpsellGroup s id shop).2 id shop).1.success = true ∧
    (deleteUpsellGroup (deleteUpsellGroup s id shop).2 id shop).2 =
      (deleteUpsellGroup s id shop).2 := by
  refine ⟨rfl, ?_, rfl, ?_⟩
  · intro r
    simp [deleteUpsellGroup, dbDeleteMany, List.mem_filter]
  · unfold deleteUpsellGroup dbDeleteMany
    simp only []
    congr 1
    exact List.filter_eq_self.mpr (fun x hx => (List.mem_filter.mp hx).2)

/-- C8 witness: deleting the demo record acknowledges success. -/
theorem deleteUpsellGroup_idempotent_witness :
    (deleteUpsellGroup demoStore2 1 ("test-shop.myshopify.com")).1.success = true :=
  (deleteUpsellGroup_idempotent demoStore2 1 ("test-shop.myshopify.com")).1

/-- C5: under every modelled behaviour of the authenticator and the store,
the loader of the public retrieval endpoint never returns a response at all —
it throws. In particular, with the authenticator's documented result shape
the double destructuring makes the local `session` and `cors` both
`undefined`: a null `session` field crashes the destructuring itself, and
otherwise the unauthorized branch crashes calling `undefined` as `cors`. The
claimed `401 {error: Unauthorized}` CORS response is unreachable, contrary to
the claim and to the source's own comments. -/
theorem apiUpsellLoader_unauthorized_code_bug :
    (∀ (auth : Except String CheckoutAuthResult) (dbResult : Except String (Option String)),
      (apiUpsellLoader auth dbResult).isOk = false) ∧
    apiUpsellLoader
      (Except.ok { session := JsValue.null, cors := JsValue.corsFn })
      (Except.ok (some ("row"))) =
      Except.error ("TypeError: cannot destructure null") ∧
    apiUpsellLoader
      (Except.ok { session := JsValue.sessionObj ("test-shop.myshopify.com"),
                   cors := JsValue.corsFn })
      (Except.ok (some ("row"))) =
      Except.error ("TypeError: cors is not a function") := by
  refine ⟨?_, rfl, rfl⟩
  intro auth dbResult
  rcases auth with e | checkoutResult
  · rfl
  · rcases checkoutResult with ⟨sv, cv⟩
    cases sv <;> cases cv <;> rfl

/-- C3: creating a group with a non-empty title and identifier list and then
looking it up by the new id and the same shop finds the stored row, whose
title is the submitted title and whose stored JSON text decodes back to the
submitted identifier list; `getUpsellGroup` returns its enrichment, which
keeps that title. Requires the auto-increment well-formedness of the store
(every stored id is below the counter). -/
theorem createUpsellGroup_getUpsellGroup_roundtrip (s : StoreState) (shop : String)
    (title : String) (productIds : List String) (now : Nat) (adminClient : CatalogClient)
    (hwf : StoreWF s) (ht : title ≠ "") (hp : productIds ≠ []) :
    ∃ newGroup s2,
      createUpsellGroup s shop title productIds now = Except.ok (newGroup, s2) ∧
      newGroup.title = title ∧
      newGroup.shop = shop ∧
      jsonParseStringArray newGroup.productIds = some productIds ∧
      dbFindFirst s2 newGroup.id shop = some newGroup ∧
      getUpsellGroup s2 newGroup.id shop adminClient =
        some (supplementUpsellGroup newGroup adminClient) ∧
      (supplementUpsellGroup newGroup adminClient).title = title := by
  have hpe : productIds.isEmpty = false := by simp [List.isEmpty_iff, hp]
  have hnone : s.records.find? (rowMatches s.nextId shop) = none := by
    rw [List.find?_eq_none]
    intro r hr
    have hlt := hwf r hr
    simp [rowMatches]
    intro heq
    exact absurd heq (by omega)
  have hfind : dbFindFirst
      ⟨s.nextId + 1, s.records ++ [⟨s.nextId, title, shop, jsonStringify productIds, now⟩]⟩
      s.nextId shop = some ⟨s.nextId, title, shop, jsonStringify productIds, now⟩ := by
    show (s.records ++
        [(⟨s.nextId, title, shop, jsonStringify productIds, now⟩ : UpsellGroupFromDB)]).find?
        (rowMatches s.nextId shop) = some _
    rw [List.find?_append, hnone]
    simp [rowMatches]
  refine ⟨⟨s.nextId, title, shop, jsonStringify productIds, now⟩,
    ⟨s.nextId + 1, s.records ++ [⟨s.nextId, title, shop, jsonStringify productIds, now⟩]⟩,
    ?_, rfl, rfl, jsonParse_jsonStringify productIds, hfind, ?_, ?_⟩
  · simp [createUpsellGroup, ht, hpe, dbCreate]
  · unfold getUpsellGroup
    rw [hfind]
  · exact (supplementUpsellGroup_fields _ adminClient).2.1

/-- C3 witness: a concrete create on the empty demo store succeeds. -/
theorem createUpsellGroup_getUpsellGroup_roundtrip_witness :
    (createUpsellGroup demoStore ("test-shop.myshopify.com") ("Summer")
        (["gid://shopify/Product/1"]) 7).isOk = true := by
  obtain ⟨g, s2, hc, -⟩ := createUpsellGroup_getUpsellGroup_roundtrip demoStore
    ("test-shop.myshopify.com") ("Summer") (["gid://shopify/Product/1"]) 7 demoClient
    (by intro r hr; simp [demoStore] at hr) (by decide) (by decide)
  rw [hc]
  rfl

/-- C7: with valid data, `updateUpsellGroup` succeeds and rewrites exactly the
rows matching both `id` and `shop`: every non-matching row is unchanged at its
position (so a matching id under a different shop is never written), a store
with no matching row is left entirely unchanged, and the returned value is the
post-update `findFirst` by the same filter, whose record — when present —
carries the submitted title and decodes to the submitted identifiers. -/
theorem updateUpsellGroup_frame (s : StoreState) (id : Nat) (shop : String)
    (data : UpsellGroupCandidate) (ht : data.title ≠ "") (hp : data.productIds ≠ []) :
    ∃ res s2,
      updateUpsellGroup s id shop data = Except.ok (res, s2) ∧
      s2.nextId = s.nextId ∧
      s2.records.length = s.records.length ∧
      (∀ (i : Nat) (r : UpsellGroupFromDB), s.records[i]? = some r →
        rowMatches id shop r = false → s2.records[i]? = some r) ∧
      (∀ (i : Nat) (r : UpsellGroupFromDB), s.records[i]? = some r →
        rowMatches id shop r = true →
        s2.records[i]? = some { r with title := data.title, productIds := jsonStringify data.productIds }) ∧
      ((∀ r ∈ s.records, rowMatches id shop r = false) → s2 = s) ∧
      res = dbFindFirst s2 id shop ∧
      (∀ g, res = some g → g.id = id ∧ g.shop = shop ∧ g.title = data.title ∧
        jsonParseStringArray g.productIds = some data.productIds) := by
  have hpe : data.productIds.isEmpty = false := by simp [List.isEmpty_iff, hp]
  refine ⟨dbFindFirst (dbUpdateMany s id shop data.title (jsonStringify data.productIds)) id shop,
    dbUpdateMany s id shop data.title (jsonStringify data.productIds),
    ?_, rfl, ?_, ?_, ?_, ?_, rfl, ?_⟩
  · simp [updateUpsellGroup, ht, hpe]
  · simp [dbUpdateMany]
  · intro i r hir hnm
    simp [dbUpdateMany, List.getElem?_map, hir, hnm]
  · intro i r hir hm
    simp [dbUpdateMany, List.getElem?_map, hir, hm]
  · intro hall
    unfold dbUpdateMany
    rw [map_eq_self_of_fixes _ _ (fun x hx => by rw [hall x hx]; simp)]
  · intro g hg
    simp only [dbFindFirst, dbUpdateMany] at hg
    have hpg := List.find?_some hg
    have hmem := List.mem_of_find?_eq_some hg
    have hid : g.id = id := by
      simp [rowMatches] at hpg
      exact hpg.1
    have hshop : g.shop = shop := by
      simp [rowMatches] at hpg
      exact hpg.2
    obtain ⟨r, hr, hfr⟩ := List.mem_map.mp hmem
    by_cases hm : rowMatches id shop r = true
    · rw [if_pos hm] at hfr
      refine ⟨hid, hshop, ?_, ?_⟩
      · rw [← hfr]
      · rw [← hfr]
        exact jsonParse_jsonStringify data.productIds
    · rw [if_neg (by simpa using hm)] at hfr
      rw [hfr] at hm
      exact absurd hpg hm

/-- C7 witness: a concrete valid update on the demo store succeeds. -/
theorem updateUpsellGroup_frame_witness :
    (updateUpsellGroup demoStore2 1 ("test-shop.myshopify.com")
        { title := "New", productIds := ["gid://shopify/Product/9"] }).isOk = true := by
  obtain ⟨res, s2, hu, -⟩ := updateUpsellGroup_frame demoStore2 1 ("test-shop.myshopify.com")
    { title := "New", productIds := ["gid://shopify/Product/9"] } (by decide) (by decide)
  rw [hu]
  rfl
